import Mathlib

/-!
# Verification of the wiston event bus (event.go)

A shallow embedding of the `EventBus` from `event.go` of the wiston
repository, together with proofs about its specified behaviour.

Modelling conventions:
* The payload type `any` is a type parameter `α`.
* A Go callback `func(data any)` is modelled as `α → CbResult`: a callback
  either returns normally or panics with a message.
* The registry `map[string]EventListener` (with
  `EventListener = map[int64]func(any)`) is an association list of
  association lists; Go map insert/delete become pointwise updates.
* The `int64` subscription counter is an `Int` reduced into the two's
  complement range after every `atomic.AddInt64`, via `int64wrap`.
* The buffered channel `chan job` of capacity `queueCap` is a FIFO list
  bounded by `queueCap`.  A channel send that has to wait (BlockIfFull,
  TimeoutIfFull on a full queue) is resolved by an oracle argument
  `slotFrees : Bool` saying whether a worker receive frees a slot during
  the wait; when it does, the send completes after the FIFO head is
  consumed.  A `Publish` call that never returns (blocked forever) is
  modelled as `none`.
* Worker goroutines and `Close` are modelled by a small-step transition
  system `Step` over a system state `Sys` carrying the bus, one
  `running/stopped` flag per worker, and the `sync.WaitGroup` counter.
  Closing an already-closed Go channel is a runtime panic, modelled by
  `closeSignal` returning `Except.error`.
-/

namespace Wiston

/-- Outcome of running one callback: normal return or a Go panic carrying a
message (the `recover()` value rendered as a string). -/
inductive CbResult where
  | ok : CbResult
  | panics : String → CbResult
deriving DecidableEq, Repr

/-- `EventListener` from event.go: a map from subscription id (int64) to
callback, modelled as an association list. -/
abbrev EvListeners (α : Type) : Type := List (Int × (α → CbResult))

/-- `job` from event.go: event name plus payload. -/
structure Job (α : Type) where
  name : String
  data : α
deriving Repr

/-- `PublishMode` from event.go is an integer type (`type PublishMode int`);
values other than the three named constants are representable. -/
abbrev PublishMode : Type := Int

/-- `DropIfFull PublishMode = iota` (0). -/
def DropIfFull : PublishMode := 0

/-- `BlockIfFull` (1). -/
def BlockIfFull : PublishMode := 1

/-- `TimeoutIfFull` (2). -/
def TimeoutIfFull : PublishMode := 2

/-- The error string built by `errors.New` in the DropIfFull branch. -/
def errQueueFull : String := "queue full: dropped event"

/-- The error string built by `errors.New` in the TimeoutIfFull branch when
the deadline fires. -/
def errPublishTimeout : String := "queue full: publish timeout"

/-- The error string built by `errors.New` when TimeoutIfFull is invoked
without a duration. -/
def errTimeoutConfig : String := "timeout mode requires duration"

/-- `EventBus` from event.go.  The mutex is not part of the state: the
embedding is sequentialised, which is what the lock achieves. -/
structure EventBus (α : Type) where
  events : List (String × EvListeners α)
  queue : List (Job α)
  queueCap : Nat
  workers : Nat
  quitClosed : Bool
  counter : Int

/-- `NewEventBus` from event.go: empty registry, empty queue of the given
capacity, counter starting at 0, quit channel open. -/
def NewEventBus (α : Type) (workers queueSize : Nat) : EventBus α :=
  { events := []
    queue := []
    queueCap := queueSize
    workers := workers
    quitClosed := false
    counter := 0 }

/-- Reduction of an integer into the two's complement int64 range, the value
a Go `int64` holds after arithmetic. -/
def int64wrap (x : Int) : Int := (x + 2 ^ 63) % 2 ^ 64 - 2 ^ 63

/-- `atomic.AddInt64(&c, d)`: the stored (and returned) value wraps in
int64. -/
def addInt64 (c d : Int) : Int := int64wrap (c + d)

/-- Go map read `b.events[name]`: `some` listener set, or `none` when the
key is absent (Go returns the nil map). -/
def lookupEvent : List (String × EvListeners α) → String → Option (EvListeners α)
  | [], _ => none
  | e :: es, name => if e.1 = name then some e.2 else lookupEvent es name

/-- Pointwise update of the listener set stored under `name`, leaving every
other key untouched (Go mutates the inner map in place). -/
def setEvent (es : List (String × EvListeners α)) (name : String)
    (f : EvListeners α → EvListeners α) : List (String × EvListeners α) :=
  es.map (fun e => if e.1 = name then (e.1, f e.2) else e)

/-- Go map assignment `ls[id] = cb`: overwrite an existing entry for `id`,
otherwise add one. -/
def insertListener (ls : EvListeners α) (id : Int) (cb : α → CbResult) :
    EvListeners α :=
  if ls.any (fun p => p.1 == id) then
    ls.map (fun p => if p.1 == id then (id, cb) else p)
  else
    ls ++ [(id, cb)]

/-- Go map delete `delete(ls, id)`: drop the entry for `id` if present. -/
def eraseListener (ls : EvListeners α) (id : Int) : EvListeners α :=
  ls.filter (fun p => !(p.1 == id))

/-- `Subscribe` from event.go: create the listener set if absent, allocate
the id by `atomic.AddInt64(&b.counter, 1)`, store the callback under it and
return the id. -/
def Subscribe (b : EventBus α) (name : String) (cb : α → CbResult) :
    Int × EventBus α :=
  let id := addInt64 b.counter 1
  let events' :=
    match lookupEvent b.events name with
    | none => b.events ++ [(name, insertListener [] id cb)]
    | some _ => setEvent b.events name (fun ls => insertListener ls id cb)
  (id, { b with counter := id, events := events' })

/-- `Unsubscribe` from event.go: delete the id from the event's listener set
when the event name is known; otherwise do nothing. -/
def Unsubscribe (b : EventBus α) (name : String) (id : Int) : EventBus α :=
  match lookupEvent b.events name with
  | some _ => { b with events := setEvent b.events name (fun ls => eraseListener ls id) }
  | none => b

/-- The snapshot copied out of the registry under the read lock at the start
of `dispatch`: the current listener set for the event, empty when the name
is unknown (reading a nil Go map yields nothing). -/
def snapshot (b : EventBus α) (name : String) : EvListeners α :=
  (lookupEvent b.events name).getD []

/-- The message `log.Println("listener panic:", r)` emits. -/
def logLine (r : String) : String := String.append "listener panic: " r

/-- A callback's execution as Go control flow: a panic is an abnormal
termination carrying the recover value. -/
def cbRun : CbResult → Except String Unit
  | .ok => .ok ()
  | .panics r => .error r

/-- The deferred `recover()` boundary in each listener goroutine: a normal
return produces no log; a panic is recovered (`r != nil`), logged, and the
goroutine completes normally. -/
def recoverLog (body : Except String Unit) : Except String (List String) :=
  match body with
  | .ok _ => .ok []
  | .error r => .ok [logLine r]

/-- One listener goroutine spawned by `dispatch`: run the callback on the
payload inside the recover boundary.  The result is the goroutine's outcome:
`.error` would be an unrecovered panic (crashing the process), `.ok logs`
a normal completion with the log lines written. -/
def listenerGoroutine (fn : α → CbResult) (data : α) : Except String (List String) :=
  recoverLog (cbRun (fn data))

/-- `dispatch` from event.go: copy the listener snapshot under the read
lock, release it, then start one goroutine per snapshot entry with the
job's payload.  First component: the invocation records (listener id,
payload handed to it); second: the outcome of each listener goroutine. -/
def dispatch (b : EventBus α) (j : Job α) :
    List (Int × α) × List (Except String (List String)) :=
  let listeners := snapshot b j.name
  (listeners.map (fun e => (e.1, j.data)),
   listeners.map (fun e => listenerGoroutine e.2 j.data))

/-- `Publish` from event.go.  `timeout` is the variadic
`...time.Duration` argument (durations in nanoseconds).  `slotFrees` is the
environment oracle for sends that must wait on a full queue: whether a
worker receive frees a slot during the wait (for TimeoutIfFull, within the
duration).  `none` means the call never returns (BlockIfFull on a queue
that is never drained). -/
def Publish (b : EventBus α) (name : String) (data : α) (mode : PublishMode)
    (timeout : List Int) (slotFrees : Bool) :
    Option (Except String Unit × EventBus α) :=
  let j : Job α := ⟨name, data⟩
  if mode = DropIfFull then
    if b.queue.length < b.queueCap then
      some (.ok (), { b with queue := b.queue ++ [j] })
    else
      some (.error errQueueFull, b)
  else if mode = BlockIfFull then
    if b.queue.length < b.queueCap then
      some (.ok (), { b with queue := b.queue ++ [j] })
    else if slotFrees then
      some (.ok (), { b with queue := b.queue.drop 1 ++ [j] })
    else
      none
  else if mode = TimeoutIfFull then
    if timeout.length = 0 then
      some (.error errTimeoutConfig, b)
    else if b.queue.length < b.queueCap then
      some (.ok (), { b with queue := b.queue ++ [j] })
    else if slotFrees then
      some (.ok (), { b with queue := b.queue.drop 1 ++ [j] })
    else
      some (.error errPublishTimeout, b)
  else
    some (.ok (), b)

/-- Per-worker state machine of the spec: `running`, or terminal
`stopped`. -/
inductive WState where
  | running : WState
  | stopped : WState
deriving DecidableEq, Repr, BEq

/-- Whole-system state: the bus, the state of each of the worker
goroutines, and the `sync.WaitGroup` counter (`wg.Add(1)` per spawned
worker, `wg.Done()` on worker return). -/
structure Sys (α : Type) where
  bus : EventBus α
  workers : List WState
  wgCount : Nat

/-- `NewEventBus` followed by `startWorkers`: all workers running, the
WaitGroup counter equal to the number of workers. -/
def initSys (α : Type) (workers queueSize : Nat) : Sys α :=
  { bus := NewEventBus α workers queueSize
    workers := List.replicate workers .running
    wgCount := workers }

/-- Runtime panic values of the Go runtime relevant here. -/
inductive GoPanic where
  | closeOfClosedChannel : GoPanic
deriving DecidableEq, Repr

/-- The `close(b.quit)` statement at the start of `Close`: closing an
already-closed channel is a runtime panic. -/
def closeSignal (s : Sys α) : Except GoPanic (Sys α) :=
  if s.bus.quitClosed then .error .closeOfClosedChannel
  else .ok { s with bus := { s.bus with quitClosed := true } }

/-- `wg.Wait()` in `Close` unblocks exactly when the WaitGroup counter has
returned to zero; `Close` returns at that instant. -/
def closeReturned (s : Sys α) : Prop := s.wgCount = 0

/-- Number of workers still running. -/
def countRunning (ws : List WState) : Nat :=
  (ws.filter (fun w => w == WState.running)).length

/-- Interleaved small-step semantics of the bus: API calls by arbitrary
caller goroutines, worker receives, worker shutdown, and the close
signal. -/
inductive Step : Sys α → Sys α → Prop where
  | subscribeStep (s : Sys α) (name : String) (cb : α → CbResult) :
      Step s { s with bus := (Subscribe s.bus name cb).2 }
  | unsubscribeStep (s : Sys α) (name : String) (id : Int) :
      Step s { s with bus := Unsubscribe s.bus name id }
  | publishStep (s : Sys α) (name : String) (data : α) (mode : PublishMode)
      (t : List Int) (sf : Bool) (r : Except String Unit) (b' : EventBus α) :
      Publish s.bus name data mode t sf = some (r, b') →
      Step s { s with bus := b' }
  | dispatchStep (s : Sys α) (i : Nat) (j : Job α) (rest : List (Job α)) :
      s.workers.get? i = some .running →
      s.bus.queue = j :: rest →
      Step s { s with bus := { s.bus with queue := rest } }
  | quitStep (s : Sys α) (i : Nat) :
      s.workers.get? i = some .running →
      s.bus.quitClosed = true →
      Step s { s with workers := s.workers.set i .stopped, wgCount := s.wgCount - 1 }
  | closeStep (s : Sys α) :
      s.bus.quitClosed = false →
      Step s { s with bus := { s.bus with quitClosed := true } }

/-- States reachable from a freshly constructed bus with `w` workers and
queue capacity `q`. -/
inductive Reachable (α : Type) (w q : Nat) : Sys α → Prop where
  | init : Reachable α w q (initSys α w q)
  | step {s t : Sys α} : Reachable α w q s → Step s t → Reachable α w q t

/-- One API call against the bus, for reasoning about whole call
histories. -/
inductive BusOp (α : Type) where
  | sub : String → (α → CbResult) → BusOp α
  | unsub : String → Int → BusOp α
  | pub : String → α → PublishMode → List Int → Bool → BusOp α

/-- The bus state after one API call (for a `Publish` that never returns,
the state is unchanged). -/
def applyOp (b : EventBus α) : BusOp α → EventBus α
  | .sub name cb => (Subscribe b name cb).2
  | .unsub name id => Unsubscribe b name id
  | .pub name data mode t sf =>
      match Publish b name data mode t sf with
      | some (_, b') => b'
      | none => b

/-- The bus state after a sequence of API calls. -/
def runOps (b : EventBus α) : List (BusOp α) → EventBus α
  | [] => b
  | op :: ops => runOps (applyOp b op) ops

/-- Number of `Subscribe` calls in a call history. -/
def subCount : List (BusOp α) → Nat
  | [] => 0
  | .sub _ _ :: ops => subCount ops + 1
  | .unsub _ _ :: ops => subCount ops
  | .pub _ _ _ _ _ :: ops => subCount ops

/-- Well-formedness of a bus used for freshness reasoning: every registered
id is positive and at most the counter, and the counter has room to be
incremented without int64 overflow. -/
def busWF (b : EventBus α) : Prop :=
  (∀ e ∈ b.events, ∀ p ∈ e.2, 0 < p.1 ∧ p.1 ≤ b.counter) ∧
  0 ≤ b.counter ∧ b.counter + 2 ≤ 2 ^ 63

/-- A call history of `n` subscriptions to the same event with a trivial
callback. -/
def subRepeat (n : Nat) : List (BusOp Nat) :=
  List.replicate n (.sub "evt" (fun _ => .ok))

/-- Concrete system after the quit channel of a fresh 1-worker bus has been
closed by a first `Close`. -/
def sysAfterSignal : Sys Nat :=
  { initSys Nat 1 1 with bus := { (initSys Nat 1 1).bus with quitClosed := true } }

/-- Concrete system after the single worker has observed the quit signal
and returned: the first `Close` call's `wg.Wait()` has unblocked. -/
def sysAfterClose : Sys Nat :=
  { bus := sysAfterSignal.bus, workers := [WState.stopped], wgCount := 0 }

/-- A callback that always panics with message boom. -/
def cbBoom : Nat → CbResult := fun _ => .panics "boom"

/-- A callback that always returns normally. -/
def cbOkN : Nat → CbResult := fun _ => .ok

/-- Concrete bus with a panicking listener and a normal listener on the
same event, and a zero-capacity queue. -/
def busPanic : EventBus Nat :=
  { events := [("evt", [(1, cbBoom), (2, cbOkN)])]
    queue := []
    queueCap := 0
    workers := 1
    quitClosed := false
    counter := 2 }

/-- Concrete one-listener bus used to instantiate the dispatch theorems:
the state reached by one `Subscribe` on a fresh two-worker bus. -/
def busOneListener : EventBus Nat :=
  { events := [("evt", [(1, cbOkN)])]
    queue := []
    queueCap := 4
    workers := 2
    quitClosed := false
    counter := 1 }

/-- Helper: a returning `Publish` never changes the id counter. -/
theorem publish_counter_eq (b : EventBus α) (name : String) (data : α)
    (mode : PublishMode) (t : List Int) (sf : Bool) (r : Except String Unit)
    (b' : EventBus α) (h : Publish b name data mode t sf = some (r, b')) :
    b'.counter = b.counter := by
  simp only [Publish] at h
  split_ifs at h <;>
    simp only [Option.some.injEq, Prod.mk.injEq] at h <;>
    first
    | exact Option.noConfusion h
    | rw [← h.2]

/-- Helper: a returning `Publish` never changes the registry. -/
theorem publish_events_eq (b : EventBus α) (name : String) (data : α)
    (mode : PublishMode) (t : List Int) (sf : Bool) (r : Except String Unit)
    (b' : EventBus α) (h : Publish b name data mode t sf = some (r, b')) :
    b'.events = b.events := by
  simp only [Publish] at h
  split_ifs at h <;>
    simp only [Option.some.injEq, Prod.mk.injEq] at h <;>
    first
    | exact Option.noConfusion h
    | rw [← h.2]

/-- C4: `Publish` in DropIfFull mode never blocks: it always returns, with
a free slot it appends the job and returns success, and at capacity it
returns the QueueFull error with the queue (and whole bus) unchanged. -/
theorem publish_drop_nonblocking (b : EventBus α) (name : String) (data : α)
    (t : List Int) (sf : Bool) :
    (Publish b name data DropIfFull t sf).isSome = true ∧
    (b.queue.length < b.queueCap →
      Publish b name data DropIfFull t sf =
        some (.ok (), { b with queue := b.queue ++ [⟨name, data⟩] })) ∧
    (b.queueCap ≤ b.queue.length →
      Publish b name data DropIfFull t sf = some (.error errQueueFull, b)) := by
  refine ⟨?_, ?_, ?_⟩
  · simp only [Publish]
    split_ifs <;> rfl
  · intro h
    simp [Publish, h]
  · intro h
    simp [Publish, if_neg (by omega : ¬ b.queue.length < b.queueCap)]

/-- C4 witness at a capacity-1 bus: the first publish succeeds, the second
one is dropped with the QueueFull error. -/
theorem publish_drop_nonblocking_witness :
    (NewEventBus Nat 1 1).queue.length < (NewEventBus Nat 1 1).queueCap ∧
    Publish (NewEventBus Nat 1 1) "evt" 7 DropIfFull [] false =
      some (.ok (), { NewEventBus Nat 1 1 with queue := [⟨"evt", 7⟩] }) ∧
    Publish { NewEventBus Nat 1 1 with queue := [⟨"evt", 7⟩] } "evt" 8 DropIfFull [] false =
      some (.error errQueueFull, { NewEventBus Nat 1 1 with queue := [⟨"evt", 7⟩] }) :=
  ⟨by decide,
   (publish_drop_nonblocking (NewEventBus Nat 1 1) "evt" 7 [] false).2.1 (by decide),
   (publish_drop_nonblocking { NewEventBus Nat 1 1 with queue := [⟨"evt", 7⟩] }
      "evt" 8 [] false).2.2 (by decide)⟩

/-- C5: TimeoutIfFull without a duration returns the configuration error
with the bus untouched (no enqueue is attempted, even when there is room);
with a duration it succeeds whenever there is room, succeeds when a slot
frees during the wait, and otherwise returns the PublishTimeout error with
the job not enqueued. -/
theorem publish_timeout_semantics (b : EventBus α) (name : String) (data : α)
    (sf : Bool) (d : Int) (ds : List Int) :
    (Publish b name data TimeoutIfFull [] sf = some (.error errTimeoutConfig, b)) ∧
    (b.queue.length < b.queueCap →
      Publish b name data TimeoutIfFull (d :: ds) sf =
        some (.ok (), { b with queue := b.queue ++ [⟨name, data⟩] })) ∧
    (b.queueCap ≤ b.queue.length →
      Publish b name data TimeoutIfFull (d :: ds) true =
        some (.ok (), { b with queue := b.queue.drop 1 ++ [⟨name, data⟩] })) ∧
    (b.queueCap ≤ b.queue.length →
      Publish b name data TimeoutIfFull (d :: ds) false =
        some (.error errPublishTimeout, b)) := by
  have hd : (DropIfFull : Int) = 0 := rfl
  have hb : (BlockIfFull : Int) = 1 := rfl
  have ht : (TimeoutIfFull : Int) = 2 := rfl
  refine ⟨?_, ?_, ?_, ?_⟩
  · simp [Publish, hd, hb, ht]
  · intro h
    simp [Publish, hd, hb, ht, h]
  · intro h
    simp [Publish, hd, hb, ht, if_neg (by omega : ¬ b.queue.length < b.queueCap)]
  · intro h
    simp [Publish, hd, hb, ht, if_neg (by omega : ¬ b.queue.length < b.queueCap)]

/-- C5 witness: missing duration yields the configuration error even with
room in the queue; on a saturated bus a 50ns timeout with no draining yields
the PublishTimeout error. -/
theorem publish_timeout_semantics_witness :
    Publish (NewEventBus Nat 1 1) "evt" 7 TimeoutIfFull [] true =
      some (.error errTimeoutConfig, NewEventBus Nat 1 1) ∧
    ((NewEventBus Nat 1 1).queueCap ≤ 1 ∧
      Publish { NewEventBus Nat 1 1 with queue := [⟨"evt", 7⟩] } "evt" 8 TimeoutIfFull [50] false =
        some (.error errPublishTimeout, { NewEventBus Nat 1 1 with queue := [⟨"evt", 7⟩] })) :=
  ⟨(publish_timeout_semantics (NewEventBus Nat 1 1) "evt" 7 true 50 []).1,
   by decide,
   (publish_timeout_semantics { NewEventBus Nat 1 1 with queue := [⟨"evt", 7⟩] }
      "evt" 8 false 50 []).2.2.2 (by decide)⟩

/-- C7: whenever a BlockIfFull publish returns, it returns success; the
only non-returning case is a full queue that never drains. -/
theorem publish_block_never_fails (b : EventBus α) (name : String) (data : α)
    (t : List Int) (sf : Bool) (r : Except String Unit) (b' : EventBus α)
    (h : Publish b name data BlockIfFull t sf = some (r, b')) :
    r = .ok () := by
  have hd : (BlockIfFull = DropIfFull) = False := by
    simp [DropIfFull, BlockIfFull]
  simp only [Publish, hd, if_false, if_pos rfl] at h
  split_ifs at h <;> simp_all

/-- C7 witness: a concrete BlockIfFull publish that returns, whose result
is success. -/
theorem publish_block_never_fails_witness :
    Publish (NewEventBus Nat 1 1) "evt" 7 BlockIfFull [] false =
      some (.ok (), { NewEventBus Nat 1 1 with queue := [⟨"evt", 7⟩] }) ∧
    (Except.ok () : Except String Unit) = .ok () :=
  ⟨rfl,
   publish_block_never_fails (NewEventBus Nat 1 1) "evt" 7 [] false (.ok ())
     { NewEventBus Nat 1 1 with queue := [⟨"evt", 7⟩] } rfl⟩

/-- C10: `Publish` with a mode that is none of the three constants falls
through the switch and returns nil without touching the queue or any other
part of the bus. -/
theorem publish_unknown_mode_nil (b : EventBus α) (name : String) (data : α)
    (mode : PublishMode) (t : List Int) (sf : Bool)
    (h0 : mode ≠ DropIfFull) (h1 : mode ≠ BlockIfFull) (h2 : mode ≠ TimeoutIfFull) :
    Publish b name data mode t sf = some (.ok (), b) := by
  simp [Publish, h0, h1, h2]

/-- C10 witness at mode 3. -/
theorem publish_unknown_mode_nil_witness :
    Publish (NewEventBus Nat 1 1) "evt" 7 3 [] false =
      some (.ok (), NewEventBus Nat 1 1) :=
  publish_unknown_mode_nil (NewEventBus Nat 1 1) "evt" 7 3 [] false
    (by decide) (by decide) (by decide)

/-- C9: `Publish` neither modifies nor inspects the subscription registry:
any returned bus keeps the registry and counter of the input, and changing
the registry and counter changes neither `Publish`'s result nor its effect
on the queue. -/
theorem publish_registry_frame (b : EventBus α) (name : String) (data : α)
    (mode : PublishMode) (t : List Int) (sf : Bool)
    (es' : List (String × EvListeners α)) (c' : Int) :
    (∀ r b', Publish b name data mode t sf = some (r, b') →
      b'.events = b.events ∧ b'.counter = b.counter) ∧
    Publish { b with events := es', counter := c' } name data mode t sf =
      (Publish b name data mode t sf).map
        (fun p => (p.1, { p.2 with events := es', counter := c' })) := by
  constructor
  · intro r b' h
    exact ⟨publish_events_eq b name data mode t sf r b' h,
           publish_counter_eq b name data mode t sf r b' h⟩
  · simp only [Publish]
    split_ifs <;> rfl

/-- Helper: a successful `lookupEvent` returns an entry of the list. -/
theorem lookupEvent_mem (es : List (String × EvListeners α)) (name : String)
    (ls : EvListeners α) (h : lookupEvent es name = some ls) : (name, ls) ∈ es := by
  induction es with
  | nil => exact Option.noConfusion h
  | cons e es ih =>
    obtain ⟨a, bl⟩ := e
    by_cases he : a = name
    · subst he
      simp only [lookupEvent, if_pos rfl] at h
      rw [← Option.some.inj h]
      exact List.mem_cons_self _ _
    · simp only [lookupEvent] at h
      rw [if_neg he] at h
      exact List.mem_cons_of_mem _ (ih h)

/-- Helper: looking up the updated key after `setEvent`. -/
theorem lookupEvent_setEvent_self (es : List (String × EvListeners α)) (name : String)
    (f : EvListeners α → EvListeners α) :
    lookupEvent (setEvent es name f) name = (lookupEvent es name).map f := by
  induction es with
  | nil => rfl
  | cons e es ih =>
    by_cases he : e.1 = name
    · simp [setEvent, lookupEvent, he]
    · simp only [setEvent, List.map_cons, if_neg he, lookupEvent]
      simpa [setEvent] using ih

/-- Helper: looking up any other key after `setEvent`. -/
theorem lookupEvent_setEvent_ne (es : List (String × EvListeners α)) (name name2 : String)
    (f : EvListeners α → EvListeners α) (hne : name2 ≠ name) :
    lookupEvent (setEvent es name f) name2 = lookupEvent es name2 := by
  induction es with
  | nil => rfl
  | cons e es ih =>
    by_cases he2 : e.1 = name2
    · simp [setEvent, lookupEvent, he2, hne]
    · by_cases he : e.1 = name
      · simp only [setEvent, List.map_cons, if_pos he, lookupEvent]
        rw [if_neg he2, if_neg he2]
        simpa [setEvent] using ih
      · simp only [setEvent, List.map_cons, if_neg he, lookupEvent]
        rw [if_neg he2, if_neg he2]
        simpa [setEvent] using ih

/-- C8: `Unsubscribe` removes the entry for the id when the event name is
known, is a no-op (not an error) when the event name is unknown or the id
is not registered there, and leaves every other registry entry, the queue
and the counter unchanged. -/
theorem unsubscribe_removes_or_noop (b : EventBus α) (name name2 : String) (id : Int) :
    (lookupEvent b.events name = none → Unsubscribe b name id = b) ∧
    (∀ ls, lookupEvent b.events name = some ls →
      lookupEvent (Unsubscribe b name id).events name = some (eraseListener ls id) ∧
      ((∀ p ∈ ls, p.1 ≠ id) → eraseListener ls id = ls) ∧
      (∀ p ∈ ls, p.1 ≠ id → p ∈ eraseListener ls id)) ∧
    (name2 ≠ name → lookupEvent (Unsubscribe b name id).events name2 = lookupEvent b.events name2) ∧
    (Unsubscribe b name id).queue = b.queue ∧
    (Unsubscribe b name id).counter = b.counter ∧
    (Unsubscribe b name id).quitClosed = b.quitClosed ∧
    (Unsubscribe b name id).queueCap = b.queueCap := by
  refine ⟨?_, ?_, ?_, ?_⟩
  · intro h
    simp [Unsubscribe, h]
  · intro ls h
    refine ⟨?_, ?_, ?_⟩
    · simp [Unsubscribe, h, lookupEvent_setEvent_self]
    · intro hfresh
      refine List.filter_eq_self.mpr ?_
      intro p hp
      simpa using hfresh p hp
    · intro p hp hne
      exact List.mem_filter.mpr ⟨hp, by simpa using hne⟩
  · intro hne
    unfold Unsubscribe
    cases hl : lookupEvent b.events name with
    | none => rfl
    | some ls => exact lookupEvent_setEvent_ne b.events name name2 _ hne
  · unfold Unsubscribe
    cases hl : lookupEvent b.events name <;> simp

/-- C8 witness: removing the only listener of a known event empties its
listener set; removing an unknown event name is the identity. -/
theorem unsubscribe_removes_or_noop_witness :
    Unsubscribe busOneListener "unknown" 5 = busOneListener ∧
    lookupEvent (Unsubscribe busOneListener "evt" 1).events "evt" =
      some (eraseListener [((1 : Int), (fun _ => CbResult.ok : Nat → CbResult))] 1) ∧
    lookupEvent (Unsubscribe busOneListener "evt" 1).events "other" =
      lookupEvent busOneListener.events "other" :=
  ⟨(unsubscribe_removes_or_noop busOneListener "unknown" "x" 5).1 rfl,
   ((unsubscribe_removes_or_noop busOneListener "evt" "x" 1).2.1
      [((1 : Int), (fun _ => CbResult.ok : Nat → CbResult))] rfl).1,
   (unsubscribe_removes_or_noop busOneListener "evt" "other" 1).2.2.1
      (by decide)⟩

/-- C3: the recover boundary of a listener goroutine catches every panic:
the goroutine always completes normally, a panicking callback produces
exactly the listener-panic log line, every snapshot entry still gets its
own goroutine and all of them terminate normally, and the only errors a
publisher can ever see from `Publish` are the three enqueue-time errors
(never a listener failure). -/
theorem listener_panic_contained (fn : α → CbResult) (data : α) (r : String)
    (b : EventBus α) (j : Job α) :
    (listenerGoroutine fn data).isOk = true ∧
    (fn data = .panics r → listenerGoroutine fn data = .ok [logLine r]) ∧
    (dispatch b j).2.length = (snapshot b j.name).length ∧
    (∀ o ∈ (dispatch b j).2, o.isOk = true) ∧
    (∀ name2 dt mode t sf e b2, Publish b name2 dt mode t sf = some (.error e, b2) →
      e = errQueueFull ∨ e = errPublishTimeout ∨ e = errTimeoutConfig) := by
  refine ⟨?_, ?_, ?_, ?_, ?_⟩
  · cases hfd : fn data <;> simp [listenerGoroutine, cbRun, recoverLog, hfd, Except.isOk, Except.toBool]
  · intro hp
    simp [listenerGoroutine, cbRun, recoverLog, hp]
  · simp [dispatch]
  · intro o ho
    simp only [dispatch, List.mem_map] at ho
    obtain ⟨e, he, rfl⟩ := ho
    cases hfd : e.2 j.data <;> simp [listenerGoroutine, cbRun, recoverLog, hfd, Except.isOk, Except.toBool]
  · intro name2 dt mode t sf e b2 h
    simp only [Publish] at h
    split_ifs at h <;> simp_all

/-- C3 witness: on a job with a panicking and a normal listener, both
goroutines run and complete normally, the panic is logged, and a concrete
full-queue publish surfaces only the QueueFull enqueue error. -/
theorem listener_panic_contained_witness :
    listenerGoroutine cbBoom 5 = .ok [logLine "boom"] ∧
    (dispatch busPanic ⟨"evt", 5⟩).2.length = (snapshot busPanic "evt").length ∧
    (listenerGoroutine cbBoom 5).isOk = true ∧
    (errQueueFull = errQueueFull ∨ errQueueFull = errPublishTimeout ∨
      errQueueFull = errTimeoutConfig) :=
  ⟨(listener_panic_contained cbBoom 5 "boom" busPanic ⟨"evt", 5⟩).2.1 rfl,
   (listener_panic_contained cbBoom 5 "boom" busPanic ⟨"evt", 5⟩).2.2.1,
   (listener_panic_contained cbBoom 5 "boom" busPanic ⟨"evt", 5⟩).2.2.2.1
     (listenerGoroutine cbBoom 5) (List.Mem.head _),
   (listener_panic_contained cbBoom 5 "boom" busPanic ⟨"evt", 5⟩).2.2.2.2
     "evt" 9 DropIfFull [] false errQueueFull busPanic rfl⟩

/-- C9 witness: a concrete returning publish preserves registry and
counter. -/
theorem publish_registry_frame_witness :
    Publish busOneListener "evt" 7 DropIfFull [] false =
      some (.ok (), { busOneListener with queue := [⟨"evt", 7⟩] }) ∧
    ({ busOneListener with queue := [⟨"evt", 7⟩] } : EventBus Nat).events = busOneListener.events ∧
    ({ busOneListener with queue := [⟨"evt", 7⟩] } : EventBus Nat).counter = busOneListener.counter :=
  ⟨rfl,
   (publish_registry_frame busOneListener "evt" 7 DropIfFull [] false [] 0).1
     (.ok ()) { busOneListener with queue := [⟨"evt", 7⟩] } rfl⟩

/-- Helper: `int64wrap` is the identity on values already in the int64
range. -/
theorem int64wrap_eq_self (x : Int) (h1 : -(2 ^ 63) ≤ x) (h2 : x < 2 ^ 63) :
    int64wrap x = x := by
  unfold int64wrap
  omega

/-- Helper: `int64wrap` always lands in the int64 range. -/
theorem int64wrap_range (x : Int) :
    -(2 ^ 63) ≤ int64wrap x ∧ int64wrap x < 2 ^ 63 := by
  unfold int64wrap
  omega

/-- Helper: wrapping an already wrapped summand changes nothing. -/
theorem int64wrap_add_left (x y : Int) :
    int64wrap (int64wrap x + y) = int64wrap (x + y) := by
  unfold int64wrap
  omega

/-- Helper: the multiplicity of one invocation record equals the
multiplicity of its id in the snapshot. -/
theorem count_invocation_map [DecidableEq α] (ls : EvListeners α) (id : Int) (x : α) :
    (ls.map (fun e => (e.1, x))).count (id, x) = ls.countP (fun e => e.1 == id) := by
  induction ls with
  | nil => rfl
  | cons e ls ih =>
    simp only [List.map_cons, List.count_cons, List.countP_cons, ih]
    by_cases h : e.1 = id
    · simp [h]
    · simp [h, Prod.ext_iff]

/-- C2: dispatch acts on exactly the snapshot copied from the registry:
the invocation records are one per snapshot entry with the job's payload
(so an id occurring once in the snapshot is invoked exactly once), every
snapshot entry is invoked, the fresh id handed out by a `Subscribe` that
runs after the snapshot was taken is not invoked for this job, and the
dispatch result depends on the registry only through the snapshot — so a
removal that happens after the copy cannot retract an invocation. -/
theorem dispatch_snapshot_exact [DecidableEq α] (b b2 : EventBus α) (j : Job α)
    (name2 : String) (cb : α → CbResult) (id : Int) :
    (dispatch b j).1 = (snapshot b j.name).map (fun e => (e.1, j.data)) ∧
    ((dispatch b j).1.count (id, j.data) = (snapshot b j.name).countP (fun e => e.1 == id)) ∧
    (∀ cbf, (id, cbf) ∈ snapshot b j.name → (id, j.data) ∈ (dispatch b j).1) ∧
    (busWF b → ∀ x, ((Subscribe b name2 cb).1, x) ∉ (dispatch b j).1) ∧
    (snapshot b2 j.name = snapshot b j.name → dispatch b2 j = dispatch b j) := by
  refine ⟨rfl, count_invocation_map _ _ _, ?_, ?_, ?_⟩
  · intro cbf hmem
    simp only [dispatch, List.mem_map]
    exact ⟨(id, cbf), hmem, rfl⟩
  · intro hwf x hmem
    obtain ⟨hids, hc0, hcb⟩ := hwf
    have hid : (Subscribe b name2 cb).1 = b.counter + 1 := by
      show addInt64 b.counter 1 = b.counter + 1
      unfold addInt64
      exact int64wrap_eq_self _ (by omega) (by omega)
    rw [hid] at hmem
    simp only [dispatch, List.mem_map] at hmem
    obtain ⟨p, hp, hpe⟩ := hmem
    have hp1 : p.1 = b.counter + 1 := congrArg Prod.fst hpe
    have hble : p.1 ≤ b.counter := by
      unfold snapshot at hp
      cases hl : lookupEvent b.events j.name with
      | none => rw [hl] at hp; simp at hp
      | some ls =>
        rw [hl] at hp
        simp only [Option.getD_some] at hp
        exact (hids _ (lookupEvent_mem _ _ _ hl) p hp).2
    omega
  · intro hsnap
    simp only [dispatch, hsnap]

/-- C2 witness: on a one-listener bus the listener with id 1 is invoked
exactly once with the payload, while the id freshly subscribed after the
snapshot receives nothing. -/
theorem dispatch_snapshot_exact_witness :
    busWF busOneListener ∧
    ((1 : Int), cbOkN) ∈ snapshot busOneListener "evt" ∧
    ((1 : Int), (7 : Nat)) ∈ (dispatch busOneListener ⟨"evt", 7⟩).1 ∧
    ((Subscribe busOneListener "evt" cbBoom).1, (7 : Nat)) ∉ (dispatch busOneListener ⟨"evt", 7⟩).1 :=
  ⟨⟨by decide, by decide, by decide⟩,
   List.Mem.head _,
   (dispatch_snapshot_exact busOneListener busOneListener ⟨"evt", 7⟩ "evt" cbBoom 1).2.2.1
     cbOkN (List.Mem.head _),
   (dispatch_snapshot_exact busOneListener busOneListener ⟨"evt", 7⟩ "evt" cbBoom 1).2.2.2.1
     ⟨by decide, by decide, by decide⟩ 7⟩

/-- Helper: `Unsubscribe` never touches the counter. -/
theorem unsubscribe_counter_eq (b : EventBus α) (name : String) (id : Int) :
    (Unsubscribe b name id).counter = b.counter := by
  unfold Unsubscribe
  cases h : lookupEvent b.events name <;> rfl

/-- Helper: a `Subscribe` call bumps the counter with `atomic.AddInt64`. -/
theorem applyOp_counter_sub (b : EventBus α) (name : String) (cb : α → CbResult) :
    (applyOp b (BusOp.sub name cb)).counter = int64wrap (b.counter + 1) := rfl

/-- Helper: an `Unsubscribe` call leaves the counter unchanged. -/
theorem applyOp_counter_unsub (b : EventBus α) (name : String) (id : Int) :
    (applyOp b (BusOp.unsub name id)).counter = b.counter :=
  unsubscribe_counter_eq b name id

/-- Helper: a `Publish` call leaves the counter unchanged. -/
theorem applyOp_counter_pub (b : EventBus α) (name : String) (data : α)
    (mode : PublishMode) (t : List Int) (sf : Bool) :
    (applyOp b (BusOp.pub name data mode t sf)).counter = b.counter := by
  simp only [applyOp]
  cases hp : Publish b name data mode t sf with
  | none => rfl
  | some p =>
    obtain ⟨r, b'⟩ := p
    exact publish_counter_eq b name data mode t sf r b' hp

/-- Helper: the counter after a call history is the wrapped sum of the
initial counter and the number of `Subscribe` calls. -/
theorem runOps_counter (ops : List (BusOp α)) (b : EventBus α)
    (h1 : -(2 ^ 63) ≤ b.counter) (h2 : b.counter < 2 ^ 63) :
    (runOps b ops).counter = int64wrap (b.counter + subCount ops) := by
  induction ops generalizing b with
  | nil =>
    simp only [runOps, subCount, Nat.cast_zero, Int.add_zero]
    exact (int64wrap_eq_self b.counter h1 h2).symm
  | cons op ops ih =>
    rw [runOps]
    cases op with
    | sub name cb =>
      have hc := applyOp_counter_sub b name cb
      have hr := int64wrap_range (b.counter + 1)
      rw [ih (applyOp b (BusOp.sub name cb)) (by rw [hc]; exact hr.1) (by rw [hc]; exact hr.2),
          hc, int64wrap_add_left]
      congr 1
      push_cast [subCount]
      ring
    | unsub name id =>
      have hc := applyOp_counter_unsub b name id
      rw [ih (applyOp b (BusOp.unsub name id)) (by rw [hc]; exact h1) (by rw [hc]; exact h2), hc]
      rfl
    | pub name data mode t sf =>
      have hc := applyOp_counter_pub b name data mode t sf
      rw [ih (applyOp b (BusOp.pub name data mode t sf)) (by rw [hc]; exact h1)
            (by rw [hc]; exact h2), hc]
      rfl

/-- Helper: `subRepeat n` contains `n` subscriptions. -/
theorem subCount_subRepeat (n : Nat) : subCount (subRepeat n) = n := by
  induction n with
  | zero => rfl
  | succ n ih =>
    show subCount (BusOp.sub "evt" (fun _ => CbResult.ok) :: subRepeat n) = n + 1
    rw [subCount, ih]

/-- C6 amended: `Subscribe` always succeeds and returns
`atomic.AddInt64(&counter, 1)`; throughout any call history of a bus whose
total number of `Subscribe` calls stays below 2^63, the returned ids are
positive and strictly increasing (hence pairwise distinct and never equal
to an id freed by an interleaved `Unsubscribe`, which leaves the counter
untouched).  Beyond 2^63 calls the int64 counter overflows and this fails
(see the counterexample). -/
theorem subscribe_ids_monotone (w q : Nat) (ops1 rest : List (BusOp α))
    (n1 n2 : String) (c1 c2 : α → CbResult)
    (hbound : (subCount ops1 : Int) + (subCount rest : Int) + 2 < 2 ^ 63) :
    0 < (Subscribe (runOps (NewEventBus α w q) ops1) n1 c1).1 ∧
    (Subscribe (runOps (NewEventBus α w q) ops1) n1 c1).1 <
      (Subscribe (runOps (Subscribe (runOps (NewEventBus α w q) ops1) n1 c1).2 rest) n2 c2).1 ∧
    (∀ bx : EventBus α, ∀ namex : String, ∀ idx : Int,
      (Unsubscribe bx namex idx).counter = bx.counter) := by
  have hs1 : (0 : Int) ≤ subCount ops1 := Int.natCast_nonneg _
  have hs2 : (0 : Int) ≤ subCount rest := Int.natCast_nonneg _
  have hc1 : (runOps (NewEventBus α w q) ops1).counter =
      int64wrap (subCount ops1) := by
    have h := runOps_counter ops1 (NewEventBus α w q)
      (by norm_num [NewEventBus]) (by norm_num [NewEventBus])
    simpa [NewEventBus] using h
  have hid1 : (Subscribe (runOps (NewEventBus α w q) ops1) n1 c1).1 =
      (subCount ops1 : Int) + 1 := by
    show addInt64 (runOps (NewEventBus α w q) ops1).counter 1 = (subCount ops1 : Int) + 1
    rw [hc1, addInt64, int64wrap_add_left]
    exact int64wrap_eq_self _ (by omega) (by omega)
  have hcmid : (Subscribe (runOps (NewEventBus α w q) ops1) n1 c1).2.counter =
      (subCount ops1 : Int) + 1 := hid1
  have hc2 : (runOps (Subscribe (runOps (NewEventBus α w q) ops1) n1 c1).2 rest).counter =
      int64wrap ((subCount ops1 : Int) + 1 + subCount rest) := by
    rw [runOps_counter rest _ (by rw [hcmid]; omega) (by rw [hcmid]; omega), hcmid]
  have hid2 : (Subscribe (runOps (Subscribe (runOps (NewEventBus α w q) ops1) n1 c1).2 rest)
      n2 c2).1 = (subCount ops1 : Int) + (subCount rest : Int) + 2 := by
    show addInt64
      (runOps (Subscribe (runOps (NewEventBus α w q) ops1) n1 c1).2 rest).counter 1 =
      (subCount ops1 : Int) + (subCount rest : Int) + 2
    rw [hc2, addInt64, int64wrap_add_left]
    rw [show (subCount ops1 : Int) + 1 + (subCount rest : Int) + 1 =
      (subCount ops1 : Int) + (subCount rest : Int) + 2 by ring]
    exact int64wrap_eq_self _ (by omega) (by omega)
  refine ⟨by omega, by rw [hid1, hid2]; omega,
    fun bx namex idx => unsubscribe_counter_eq bx namex idx⟩

/-- C6 witness: with no surrounding history the first two ids are 1 and 2:
positive, increasing, distinct. -/
theorem subscribe_ids_monotone_witness :
    ((subCount ([] : List (BusOp Nat)) : Int) +
      (subCount ([] : List (BusOp Nat)) : Int) + 2 < 2 ^ 63) ∧
    0 < (Subscribe (runOps (NewEventBus Nat 1 1) []) "a" cbOkN).1 ∧
    (Subscribe (runOps (NewEventBus Nat 1 1) []) "a" cbOkN).1 <
      (Subscribe (runOps (Subscribe (runOps (NewEventBus Nat 1 1) []) "a" cbOkN).2 [])
        "b" cbOkN).1 :=
  ⟨by decide,
   (subscribe_ids_monotone 1 1 [] [] "a" "b" cbOkN cbOkN (by decide)).1,
   (subscribe_ids_monotone 1 1 [] [] "a" "b" cbOkN cbOkN (by decide)).2.1⟩

/-- C6 counterexample: on an unbounded lifetime the claim fails: the
2^63-th `Subscribe` call of a fresh bus returns -2^63 (negative, smaller
than the first id 1, so the ids are not strictly increasing), and the call
following 2^64 subscriptions returns 1 again (so two calls observe the
same id). -/
theorem subscribe_id_overflow_cex :
    (Subscribe (runOps (NewEventBus Nat 1 1) (subRepeat (2 ^ 63 - 1))) "evt" cbOkN).1 =
      -(2 ^ 63) ∧
    (Subscribe (NewEventBus Nat 1 1) "evt" cbOkN).1 = 1 ∧
    (Subscribe (runOps (NewEventBus Nat 1 1) (subRepeat (2 ^ 64))) "evt" cbOkN).1 = 1 := by
  have hcast1 : ((2 ^ 63 - 1 : Nat) : Int) = 2 ^ 63 - 1 := by
    rw [Nat.cast_sub (by norm_num)]
    push_cast
  have hcast2 : ((2 ^ 64 : Nat) : Int) = 2 ^ 64 := by
    push_cast
  refine ⟨?_, by decide, ?_⟩
  · have h1 : (runOps (NewEventBus Nat 1 1) (subRepeat (2 ^ 63 - 1))).counter =
        int64wrap (2 ^ 63 - 1) := by
      have h := runOps_counter (subRepeat (2 ^ 63 - 1)) (NewEventBus Nat 1 1)
        (by norm_num [NewEventBus]) (by norm_num [NewEventBus])
      rw [subCount_subRepeat, hcast1] at h
      simpa [NewEventBus] using h
    show addInt64 (runOps (NewEventBus Nat 1 1) (subRepeat (2 ^ 63 - 1))).counter 1 =
      -(2 ^ 63)
    rw [h1, addInt64, int64wrap_add_left]
    decide
  · have h2 : (runOps (NewEventBus Nat 1 1) (subRepeat (2 ^ 64))).counter =
        int64wrap (2 ^ 64) := by
      have h := runOps_counter (subRepeat (2 ^ 64)) (NewEventBus Nat 1 1)
        (by norm_num [NewEventBus]) (by norm_num [NewEventBus])
      rw [subCount_subRepeat, hcast2] at h
      simpa [NewEventBus] using h
    show addInt64 (runOps (NewEventBus Nat 1 1) (subRepeat (2 ^ 64))).counter 1 = 1
    rw [h2, addInt64, int64wrap_add_left]
    decide

/-- Helper: a running head contributes one to the running count. -/
theorem countRunning_cons_running (ws : List WState) :
    countRunning (WState.running :: ws) = countRunning ws + 1 := by
  unfold countRunning
  rw [List.filter_cons_of_pos (by rfl), List.length_cons]

/-- Helper: a stopped head contributes nothing to the running count. -/
theorem countRunning_cons_stopped (ws : List WState) :
    countRunning (WState.stopped :: ws) = countRunning ws := by
  unfold countRunning
  rw [List.filter_cons_of_neg (by decide)]

/-- Helper: all freshly started workers are running. -/
theorem countRunning_replicate (n : Nat) :
    countRunning (List.replicate n WState.running) = n := by
  induction n with
  | zero => rfl
  | succ n ih =>
    show countRunning (WState.running :: List.replicate n WState.running) = n + 1
    rw [countRunning_cons_running, ih]

/-- Helper: stopping one running worker decreases the running count by
one. -/
theorem countRunning_set_stopped (ws : List WState) (i : Nat)
    (h : ws.get? i = some WState.running) :
    countRunning (ws.set i WState.stopped) + 1 = countRunning ws := by
  induction ws generalizing i with
  | nil => exact Option.noConfusion h
  | cons w ws ih =>
    cases i with
    | zero =>
      obtain rfl : w = WState.running := Option.some.inj h
      show countRunning (WState.stopped :: ws) + 1 = countRunning (WState.running :: ws)
      rw [countRunning_cons_stopped, countRunning_cons_running]
    | succ i =>
      have h' : ws.get? i = some WState.running := h
      show countRunning (w :: ws.set i WState.stopped) + 1 = countRunning (w :: ws)
      cases w
      · rw [countRunning_cons_running, countRunning_cons_running]
        have := ih i h'
        omega
      · rw [countRunning_cons_stopped, countRunning_cons_stopped]
        exact ih i h'

/-- Helper: a zero running count means every worker is stopped. -/
theorem countRunning_zero_all_stopped (ws : List WState) (h : countRunning ws = 0) :
    ws.all (fun x => x == WState.stopped) = true := by
  induction ws with
  | nil => rfl
  | cons w ws ih =>
    cases w
    · rw [countRunning_cons_running] at h
      exact absurd h (by omega)
    · rw [countRunning_cons_stopped] at h
      have hh := ih h
      rw [List.all_cons, hh]
      rfl

/-- Helper: one transition preserves the WaitGroup bookkeeping. -/
theorem step_wgCount {s t : Sys α} (hst : Step s t)
    (ih : s.wgCount = countRunning s.workers) :
    t.wgCount = countRunning t.workers := by
  cases hst with
  | subscribeStep name cb => exact ih
  | unsubscribeStep name id => exact ih
  | publishStep name data mode t2 sf r b' hp => exact ih
  | dispatchStep i j rest hget hq => exact ih
  | quitStep i hget hq =>
    have h2 := countRunning_set_stopped s.workers i hget
    show s.wgCount - 1 = countRunning (s.workers.set i WState.stopped)
    omega
  | closeStep hq => exact ih

/-- Helper: in every reachable state the WaitGroup counter equals the
number of still-running workers (each worker did `wg.Add(1)` at spawn and
`wg.Done()` exactly on return). -/
theorem reachable_wgCount (w q : Nat) (s : Sys α) (h : Reachable α w q s) :
    s.wgCount = countRunning s.workers := by
  induction h with
  | init => exact (countRunning_replicate w).symm
  | step hr hstep ih => exact step_wgCount hstep ih

/-- C1 amended: `Close` does block until every worker has reached its
terminal stopped state — `wg.Wait()` returns only in reachable states
where all workers are stopped — but the second half of the claim fails on
the code: a second `Close` call finds the quit channel already closed and
`close(b.quit)` then panics, so it is not a harmless no-op (see the
counterexample). -/
theorem close_waits_but_second_close_panics (w q : Nat) (s s1 : Sys α) :
    (Reachable α w q s → closeReturned s →
      s.workers.all (fun x => x == WState.stopped) = true) ∧
    (closeSignal s = .ok s1 → closeSignal s1 = .error .closeOfClosedChannel) := by
  constructor
  · intro hr hcr
    have hwg := reachable_wgCount w q s hr
    refine countRunning_zero_all_stopped s.workers ?_
    have hz : s.wgCount = 0 := hcr
    omega
  · intro hok
    unfold closeSignal at hok ⊢
    by_cases hq : s.bus.quitClosed
    · rw [if_pos hq] at hok
      exact Except.noConfusion hok
    · rw [if_neg hq] at hok
      have h1 : s1.bus.quitClosed = true := by
        rw [← Except.ok.inj hok]
      rw [if_pos h1]

/-- C1 witness: on a concrete one-worker bus, after the close signal and
the worker's quit transition, `wg.Wait` has returned and the worker list is
indeed all-stopped; and the concrete first close signal makes the second
one panic. -/
theorem close_waits_but_second_close_panics_witness :
    closeReturned sysAfterClose ∧
    sysAfterClose.workers.all (fun x => x == WState.stopped) = true ∧
    closeSignal sysAfterSignal = .error .closeOfClosedChannel := by
  have hreach : Reachable Nat 1 1 sysAfterClose :=
    Reachable.step
      (Reachable.step Reachable.init
        (show Step (initSys Nat 1 1) sysAfterSignal from
          Step.closeStep (initSys Nat 1 1) rfl))
      (show Step sysAfterSignal sysAfterClose from
        Step.quitStep sysAfterSignal 0 rfl rfl)
  exact ⟨rfl,
    (close_waits_but_second_close_panics 1 1 sysAfterClose sysAfterClose).1 hreach rfl,
    (close_waits_but_second_close_panics 1 1 (initSys Nat 1 1) sysAfterSignal).2 rfl⟩

/-- C1 counterexample: a second `Close` after a completed first `Close` is
not a harmless no-op.  On a fresh one-worker bus the first `Close` signals
the quit channel, the single worker observes it and stops, `wg.Wait`
returns — and the next `close(b.quit)` is a close-of-closed-channel
runtime panic. -/
theorem close_double_close_panics_cex :
    closeSignal (initSys Nat 1 1) = .ok sysAfterSignal ∧
    Step sysAfterSignal sysAfterClose ∧
    closeReturned sysAfterClose ∧
    closeSignal sysAfterClose = .error .closeOfClosedChannel :=
  ⟨rfl, Step.quitStep sysAfterSignal 0 rfl rfl, rfl, rfl⟩

end Wiston
